import Mathlib

/-!
Shallow embedding of the `lab_1` Sudoku-to-SAT pipeline:
`src/lab_1/encode_sudoku.py` (class `SudokuEncoder`) and
`src/lab_1/solve_sudoku.py` (class `DPLLSolver`).

Conventions of the embedding:
* Python `int` is `Int`; loop indices produced by `range(...)` are `Nat`
  (they are always non-negative) and are coerced where a Python `int` is used.
* A grid (`List[List[int]]`) is `List (List Int)`; Python indexing
  `g[r][c]` is `getCell`, and `g[r][c] = v` is `setCell` (all uses in the
  claims are in bounds, where `List.getD`/`List.set` agree with Python).
* File contents are `List String` (one entry per line, without the final
  newline).  Python's `str.strip().split()` and `int(...)` do not exist as
  kernel-reducible Lean functions, so they are embedded as char-level
  functions (`pySplit`, `pyInt`) with Python's semantics on the inputs the
  program produces (whitespace-run splitting, optional leading minus sign).
* Mutation of `self` is explicit state passing on the `SudokuEncoder`
  structure; every Python loop that calls `self._add_clause(...)` is the
  fold `addClauses` over the list of clauses the loop generates, in loop
  order.
-/

namespace Sudoku

/-- A Sudoku grid: Python `List[List[int]]`. -/
abbrev Grid := List (List Int)

/-- Python `g[r][c]` (total; all claim-relevant uses are in bounds). -/
def getCell (g : Grid) (r c : Nat) : Int :=
  (g.getD r []).getD c 0

/-- Python `g[r][c] = v` (total; `List.set` is the identity out of bounds,
Python would raise, but all claim-relevant uses are in bounds). -/
def setCell (g : Grid) (r c : Nat) (v : Int) : Grid :=
  g.set r ((g.getD r []).set c v)

/-! ### `SudokuEncoder` (encode_sudoku.py) -/

/-- The mutable state of a `SudokuEncoder` instance: `self.size`,
`self.clauses`, `self.num_clauses`. -/
structure SudokuEncoder where
  size : Nat
  clauses : List (List Int)
  num_clauses : Nat
deriving Repr, DecidableEq

/-- `SudokuEncoder.__init__`: `size = 9`, empty clause list, zero counter. -/
def encoderInit : SudokuEncoder :=
  { size := 9, clauses := [], num_clauses := 0 }

/-- `SudokuEncoder._add_clause`: append the clause and increment the
counter. -/
def _add_clause (e : SudokuEncoder) (clause : List Int) : SudokuEncoder :=
  { e with clauses := e.clauses ++ [clause], num_clauses := e.num_clauses + 1 }

/-- A Python loop body that calls `self._add_clause` once per generated
clause, run over the whole list of clauses the loop generates in order. -/
def addClauses (e : SudokuEncoder) (cs : List (List Int)) : SudokuEncoder :=
  cs.foldl _add_clause e

/-- `SudokuEncoder.get_var` (identical to `DPLLSolver.get_var`):
`row * 81 + col * 9 + num`. -/
def get_var (row col num : Int) : Int :=
  row * 81 + col * 9 + num

/-- The clauses generated, in loop order, by
`SudokuEncoder.encode_cell_constraints` (`self.size = 9` always: it is set
in `__init__` and never reassigned; the digit loops are literal
`range(1, 10)` / `range(num1 + 1, 10)`). -/
def cellClauses : List (List Int) :=
  (List.range 9).flatMap fun (row : Nat) =>
    (List.range 9).flatMap fun (col : Nat) =>
      ((List.range' 1 9).map fun (num : Nat) => get_var row col num) ::
        ((List.range' 1 9).flatMap fun (num1 : Nat) =>
          (List.range' (num1 + 1) (9 - num1)).map fun (num2 : Nat) =>
            [-get_var row col num1, -get_var row col num2])

/-- `SudokuEncoder.encode_cell_constraints`. -/
def encode_cell_constraints (e : SudokuEncoder) : SudokuEncoder :=
  addClauses e cellClauses

/-- The clauses generated, in loop order, by
`SudokuEncoder.encode_row_constraints`. -/
def rowClauses : List (List Int) :=
  (List.range 9).flatMap fun (row : Nat) =>
    (List.range' 1 9).map fun (num : Nat) =>
      (List.range 9).map fun (col : Nat) => get_var row col num

/-- `SudokuEncoder.encode_row_constraints`. -/
def encode_row_constraints (e : SudokuEncoder) : SudokuEncoder :=
  addClauses e rowClauses

/-- The clauses generated, in loop order, by
`SudokuEncoder.encode_col_constraints`. -/
def colClauses : List (List Int) :=
  (List.range 9).flatMap fun (col : Nat) =>
    (List.range' 1 9).map fun (num : Nat) =>
      (List.range 9).map fun (row : Nat) => get_var row col num

/-- `SudokuEncoder.encode_col_constraints`. -/
def encode_col_constraints (e : SudokuEncoder) : SudokuEncoder :=
  addClauses e colClauses

/-- The clauses generated, in loop order, by
`SudokuEncoder.encode_block_constraints`. -/
def blockClauses : List (List Int) :=
  (List.range 3).flatMap fun (block_row : Nat) =>
    (List.range 3).flatMap fun (block_col : Nat) =>
      (List.range' 1 9).map fun (num : Nat) =>
        (List.range 3).flatMap fun (i : Nat) =>
          (List.range 3).map fun (j : Nat) =>
            get_var (block_row * 3 + i) (block_col * 3 + j) num

/-- `SudokuEncoder.encode_block_constraints`. -/
def encode_block_constraints (e : SudokuEncoder) : SudokuEncoder :=
  addClauses e blockClauses

/-- The unit clauses generated, in loop order, by
`SudokuEncoder.encode_initial_values`: one clause
`[get_var row col puzzle[row][col]]` per cell with `puzzle[row][col] != 0`. -/
def givensClauses (puzzle : Grid) : List (List Int) :=
  (List.range 9).flatMap fun row =>
    (List.range 9).flatMap fun col =>
      if getCell puzzle row col ≠ 0 then
        [[get_var row col (getCell puzzle row col)]]
      else []

/-- `SudokuEncoder.encode_initial_values`. -/
def encode_initial_values (e : SudokuEncoder) (puzzle : Grid) : SudokuEncoder :=
  addClauses e (givensClauses puzzle)

/-- `SudokuEncoder.write_dimacs`: the lines written to the output file
(comment, `p cnf` header, then one line per clause with a trailing ` 0`). -/
def write_dimacs (e : SudokuEncoder) : List String :=
  "c Encoded Sudoku puzzle" ::
    ("p cnf " ++ toString (e.size ^ 3) ++ " " ++ toString e.num_clauses) ::
      e.clauses.map fun clause =>
        String.intercalate " " (clause.map toString) ++ " 0"

/-- `SudokuEncoder.validate_puzzle`: exactly 9 rows, each of exactly 9
values, each value in `0..9`. -/
def validate_puzzle (puzzle : Grid) : Bool :=
  if puzzle.length ≠ 9 then false
  else puzzle.all fun row =>
    decide (row.length = 9) && row.all fun x => decide (0 ≤ x ∧ x ≤ 9)

/-- `SudokuEncoder.encode_puzzle`: validate, then generate all clause
groups in order and write the DIMACS file.  Returns the Python return
value, the final encoder state, and the written file (`none` when nothing
is written). -/
def encode_puzzle (e : SudokuEncoder) (puzzle : Grid) :
    Bool × SudokuEncoder × Option (List String) :=
  if validate_puzzle puzzle then
    let e1 := encode_cell_constraints e
    let e2 := encode_row_constraints e1
    let e3 := encode_col_constraints e2
    let e4 := encode_block_constraints e3
    let e5 := encode_initial_values e4 puzzle
    (true, e5, some (write_dimacs e5))
  else
    (false, e, none)

/-! ### `DPLLSolver` (solve_sudoku.py) -/

/-- The decode arithmetic shared by `DPLLSolver.read_dimacs` and
`DPLLSolver.extract_solution`: `var = id - 1; row = var // 81`. -/
def rowOf (id : Int) : Int :=
  (id - 1) / 81

/-- Decode arithmetic: `var = id - 1; col = (var // 9) % 9`. -/
def colOf (id : Int) : Int :=
  ((id - 1) / 9) % 9

/-- Decode arithmetic: `var = id - 1; num = var % 9 + 1`. -/
def numOf (id : Int) : Int :=
  (id - 1) % 9 + 1

/-- The `[[0 for _ in range(9)] for _ in range(9)]` starting grid. -/
def emptyGrid : Grid :=
  List.replicate 9 (List.replicate 9 0)

/-- The loop body of `DPLLSolver.extract_solution`: a positive literal sets
`solution[row][col] = num` with `(row, col, num)` the decode of the
identifier; other entries are ignored. -/
def extractStep (solution : Grid) (var : Int) : Grid :=
  if var > 0 then
    setCell solution (rowOf var).toNat (colOf var).toNat (numOf var)
  else solution

/-- `DPLLSolver.extract_solution`. -/
def extract_solution (model : List Int) : Grid :=
  model.foldl extractStep emptyGrid

/-- Python's whitespace characters, as used by `str.split()` with no
argument. -/
def pyIsSpace (ch : Char) : Bool :=
  ch == ' ' || ch == '\t' || ch == '\n' || ch == '\r'

/-- Splitting a character list into maximal runs of non-whitespace
characters (the behaviour of Python `str.strip().split()`); `acc` holds the
current run, reversed. -/
def splitWS : List Char → List Char → List (List Char)
  | [], [] => []
  | [], acc => [acc.reverse]
  | ch :: rest, acc =>
    if pyIsSpace ch then
      match acc with
      | [] => splitWS rest []
      | _ => acc.reverse :: splitWS rest []
    else splitWS rest (ch :: acc)

/-- Python `line.strip().split()`. -/
def pySplit (s : String) : List String :=
  (splitWS s.data []).map fun cs => String.mk cs

/-- The numeric value of a digit string (`int(...)` on the tokens the
program produces: an optional leading minus sign then decimal digits). -/
def digitsVal (ds : List Char) : Nat :=
  ds.foldl (fun a ch => a * 10 + (ch.toNat - 48)) 0

/-- Python `int(token)` on the well-formed integer tokens this file format
contains. -/
def pyInt (s : String) : Int :=
  match s.data with
  | '-' :: ds => -(digitsVal ds : Int)
  | ds => (digitsVal ds : Int)

/-- Python `line.startswith(single-character-string)`. -/
def pyStartsWith (s : String) (ch : Char) : Bool :=
  match s.data with
  | [] => false
  | a :: _ => a == ch

/-- `DPLLSolver.read_dimacs` on the lines of the file: skip lines starting
with `c` or `p`; on a line whose integer tokens are a single positive
number, decode it and set the cell; all other lines leave the grid
unchanged. -/
def read_dimacs (lines : List String) : Grid :=
  lines.foldl
    (fun sudoku line =>
      if pyStartsWith line 'c' || pyStartsWith line 'p' then sudoku
      else
        match (pySplit line).map pyInt with
        | [n] =>
          if n > 0 then
            setCell sudoku (rowOf n).toNat (colOf n).toNat (numOf n)
          else sudoku
        | _ => sudoku)
    emptyGrid

/-- The two-outcome contract of the external collaborator
(`self.solver.solve()` / `self.solver.get_model()`), plus the fault case
raised as an exception inside the `try` block. -/
inductive SolverOutcome where
  | sat (model : List Int)
  | unsat
  | err (msg : String)
deriving DecidableEq

/-- The value `DPLLSolver.solve` returns to its caller, as a function of
the collaborator outcome: a model is extracted and returned, a clean UNSAT
returns `None`, and the `except` branch prints the error and also returns
`None`. -/
def solveResult (outcome : SolverOutcome) : Option Grid :=
  match outcome with
  | .sat model => some (extract_solution model)
  | .unsat => none
  | .err _ => none

/-! ### Derived notions used only in the statements -/

/-- A grid of exactly 9 rows, each of exactly 9 values. -/
def isG9 (g : Grid) : Prop :=
  g.length = 9 ∧ ∀ row ∈ g, row.length = 9

/-- The number of nonzero cells of a grid. -/
def nonzeroCount (g : Grid) : Nat :=
  (g.map fun row => row.countP fun x => decide (x ≠ 0)).sum

/-- `writesTo r c var`: the entry `var` is positive and its decode sends it
to cell `(r, c)`. -/
def writesTo (r c : Nat) (var : Int) : Bool :=
  decide (0 < var ∧ (rowOf var).toNat = r ∧ (colOf var).toNat = c)

/-- A fully solved grid: 9 rows of 9 values, every value in `1..9`. -/
def solvedGrid (g : Grid) : Prop :=
  g.length = 9 ∧ ∀ row ∈ g, row.length = 9 ∧ ∀ x ∈ row, 1 ≤ x ∧ x ≤ 9

/-- Rule consistency of a fully solved grid: every row, column and 3×3
block contains each digit exactly once. -/
def ruleConsistent (g : Grid) : Bool :=
  ((List.range 9).all fun r => (List.range' 1 9).all fun d =>
    ((List.range 9).countP fun c => getCell g r c == (d : Int)) == 1) &&
  ((List.range 9).all fun c => (List.range' 1 9).all fun d =>
    ((List.range 9).countP fun r => getCell g r c == (d : Int)) == 1) &&
  ((List.range 3).all fun br => (List.range 3).all fun bc =>
    (List.range' 1 9).all fun d =>
      (((List.range 3).flatMap fun i => (List.range 3).map fun j =>
        getCell g (br * 3 + i) (bc * 3 + j)).countP fun v => v == (d : Int)) == 1)

/-- The 81 variable identifiers asserted true by a fully solved grid: one
per cell, the encoding of that cell's value. -/
def trueIds (g : Grid) : List Int :=
  (List.range 9).flatMap fun (r : Nat) =>
    (List.range 9).map fun (c : Nat) => get_var r c (getCell g r c)

/-- The assignment in which exactly the identifiers of `trueIds g` are
true and every other variable in `1..729` is false, as the signed list the
collaborator hands back. -/
def modelOf (g : Grid) : List Int :=
  (List.range 729).map fun (i : Nat) =>
    if ((i : Int) + 1) ∈ trueIds g then ((i : Int) + 1) else -((i : Int) + 1)

/-- A concrete fully solved, rule-consistent grid, used only to
instantiate universally quantified theorems at a concrete input. -/
def demoSolvedGrid : Grid :=
  [[1, 2, 3, 4, 5, 6, 7, 8, 9],
   [4, 5, 6, 7, 8, 9, 1, 2, 3],
   [7, 8, 9, 1, 2, 3, 4, 5, 6],
   [2, 3, 1, 5, 6, 4, 8, 9, 7],
   [5, 6, 4, 8, 9, 7, 2, 3, 1],
   [8, 9, 7, 2, 3, 1, 5, 6, 4],
   [3, 1, 2, 6, 4, 5, 9, 7, 8],
   [6, 4, 5, 9, 7, 8, 3, 1, 2],
   [9, 7, 8, 3, 1, 2, 6, 4, 5]]

/-! ### Basic lemmas about the encoder state -/

theorem addClauses_clauses (cs : List (List Int)) :
    ∀ e : SudokuEncoder, (addClauses e cs).clauses = e.clauses ++ cs := by
  induction cs with
  | nil => intro e; simp [addClauses]
  | cons c cs ih =>
    intro e
    show (addClauses (_add_clause e c) cs).clauses = _
    rw [ih]
    simp [_add_clause]

theorem addClauses_num_clauses (cs : List (List Int)) :
    ∀ e : SudokuEncoder, (addClauses e cs).num_clauses = e.num_clauses + cs.length := by
  induction cs with
  | nil => intro e; simp [addClauses]
  | cons c cs ih =>
    intro e
    show (addClauses (_add_clause e c) cs).num_clauses = _
    rw [ih]
    simp [_add_clause]
    omega

theorem addClauses_size (cs : List (List Int)) :
    ∀ e : SudokuEncoder, (addClauses e cs).size = e.size := by
  induction cs with
  | nil => intro e; simp [addClauses]
  | cons c cs ih =>
    intro e
    show (addClauses (_add_clause e c) cs).size = _
    rw [ih]
    simp [_add_clause]

/-! ### Claim C1 -/

/-- C1: for every `row`, `col` in `0..8` and `digit` in `1..9`, the decode
arithmetic of `extract_solution` / `read_dimacs` recovers the triple from
the identifier `get_var row col digit = row*81 + col*9 + digit`. -/
theorem c1_get_var_decode_roundtrip (row col digit : Int)
    (h1 : 0 ≤ row) (h2 : row ≤ 8) (h3 : 0 ≤ col) (h4 : col ≤ 8)
    (h5 : 1 ≤ digit) (h6 : digit ≤ 9) :
    rowOf (get_var row col digit) = row ∧ colOf (get_var row col digit) = col ∧
      numOf (get_var row col digit) = digit := by
  unfold rowOf colOf numOf get_var
  omega

/-- Witness for C1 at `(row, col, digit) = (4, 7, 9)`. -/
theorem c1_get_var_decode_roundtrip_witness :
    rowOf (get_var 4 7 9) = 4 ∧ colOf (get_var 4 7 9) = 7 ∧ numOf (get_var 4 7 9) = 9 :=
  c1_get_var_decode_roundtrip 4 7 9 (by decide) (by decide) (by decide) (by decide)
    (by decide) (by decide)

/-! ### Claim C8 -/

theorem validate_puzzle_eq_true_iff (g : Grid) :
    validate_puzzle g = true ↔
      g.length = 9 ∧ ∀ row ∈ g, row.length = 9 ∧ ∀ x ∈ row, 0 ≤ x ∧ x ≤ 9 := by
  by_cases h : g.length = 9
  · simp [validate_puzzle, h, List.all_eq_true]
  · simp [validate_puzzle, h, List.all_eq_true]

/-- C8: `validate_puzzle` returns `true` exactly on grids of 9 rows, each
of 9 values, every value in `0..9`. -/
theorem c8_validate_puzzle_iff (g : Grid) :
    validate_puzzle g = true ↔
      g.length = 9 ∧ ∀ row ∈ g, row.length = 9 ∧ ∀ x ∈ row, 0 ≤ x ∧ x ≤ 9 :=
  validate_puzzle_eq_true_iff g

/-! ### Claim C7 -/

/-- C7: on a grid that fails structural validation, `encode_puzzle` returns
`False`, leaves the fresh encoder unchanged with an empty clause list, and
writes nothing. -/
theorem c7_invalid_puzzle_encodes_nothing (g : Grid)
    (h : validate_puzzle g = false) :
    encode_puzzle encoderInit g = (false, encoderInit, none) ∧
      (encode_puzzle encoderInit g).2.1.clauses = [] := by
  have h' : ¬ validate_puzzle g = true := by simp [h]
  constructor
  · simp [encode_puzzle, h']
  · simp [encode_puzzle, h', encoderInit]

/-- Witness for C7 on the empty grid (0 rows). -/
theorem c7_invalid_puzzle_encodes_nothing_witness :
    encode_puzzle encoderInit [] = (false, encoderInit, none) ∧
      (encode_puzzle encoderInit []).2.1.clauses = [] :=
  c7_invalid_puzzle_encodes_nothing [] (by decide)

/-! ### Claim C4 (corrected) -/

/-- C4 counterexample: the value `solve` returns on an internal solver
fault is the very value it returns on a clean UNSAT (`None` in both
cases), so the two outcomes are not distinct. -/
theorem c4_error_equals_unsat_counterexample :
    solveResult (SolverOutcome.err "glucose crashed") = solveResult SolverOutcome.unsat :=
  rfl

/-- C4 amended: unsatisfiability is represented as the valid non-exception
result `None` (never an exception path), but an internal solver fault is
also returned as `None`: the two outcomes coincide instead of being
distinct. -/
theorem c4_solve_outcome_conflation :
    solveResult SolverOutcome.unsat = none ∧
      (∀ msg, solveResult (SolverOutcome.err msg) = none) ∧
      (∀ model, solveResult (SolverOutcome.sat model) = some (extract_solution model)) := by
  refine ⟨rfl, fun msg => rfl, fun model => rfl⟩

/-! ### Claim C3 (code bug) -/

/-- C3: the parser does not drop the trailing terminator `0`: the token
list of the unit-clause line `5 0` (written by the encoder for the given
`puzzle[0][0] = 5`, variable `get_var 0 0 5 = 5`) is `[5, 0]`, whose
length is 2, so the `len(nums) == 1` test fails and the clause is skipped:
the file reads back as the all-zero grid, not as a grid with the forced
value.  Had the terminator been dropped (line `5` alone), the cell would
have been set. -/
theorem c3_trailing_zero_not_dropped :
    write_dimacs { size := 9, clauses := [[5]], num_clauses := 1 } =
        ["c Encoded Sudoku puzzle", "p cnf 729 1", "5 0"] ∧
      (pySplit "5 0").map pyInt = [5, 0] ∧
      read_dimacs ["c Encoded Sudoku puzzle", "p cnf 729 1", "5 0"] = emptyGrid ∧
      getCell (read_dimacs ["c Encoded Sudoku puzzle", "p cnf 729 1", "5 0"]) 0 0 = 0 ∧
      read_dimacs ["c Encoded Sudoku puzzle", "p cnf 729 1", "5"] = setCell emptyGrid 0 0 5 ∧
      getCell (read_dimacs ["c Encoded Sudoku puzzle", "p cnf 729 1", "5"]) 0 0 = 5 := by
  refine ⟨rfl, by decide, by decide, by decide, by decide, by decide⟩

/-! ### Claim C6 -/

/-- C6: the file the encoder serializes for any clause sequence has the
header line `p cnf 729 <numClauses>` (the variable count `size ** 3` is
always 729), where `<numClauses>` is exactly the number of clause lines
that follow (the length of the clause sequence). -/
theorem c6_write_dimacs_header (cs : List (List Int)) :
    write_dimacs (addClauses encoderInit cs) =
        "c Encoded Sudoku puzzle" ::
          ("p cnf 729 " ++ toString cs.length) ::
            cs.map (fun clause => String.intercalate " " (clause.map toString) ++ " 0") ∧
      (addClauses encoderInit cs).num_clauses = cs.length ∧
      (cs.map (fun clause =>
        String.intercalate " " (clause.map toString) ++ " 0")).length = cs.length := by
  have h1 : (addClauses encoderInit cs).clauses = cs := by
    rw [addClauses_clauses]; rfl
  have h2 : (addClauses encoderInit cs).num_clauses = cs.length := by
    rw [addClauses_num_clauses]
    simp [encoderInit]
  have h3 : (addClauses encoderInit cs).size = 9 := by
    rw [addClauses_size]; rfl
  refine ⟨?_, h2, by simp⟩
  unfold write_dimacs
  rw [h1, h2, h3]
  rw [show ("p cnf " ++ toString ((9 : Nat) ^ 3) ++ " ") = "p cnf 729 " from rfl]

/-! ### Clause-group length lemmas (toward C2) -/

theorem flatMap_length_const {α β : Type} (l : List α) (f : α → List β) (n : Nat)
    (h : ∀ a ∈ l, (f a).length = n) : (l.flatMap f).length = l.length * n := by
  induction l with
  | nil => simp
  | cons a as ih =>
    rw [List.flatMap_cons, List.length_append, h a (List.mem_cons_self a as),
      ih (fun b hb => h b (List.mem_cons_of_mem a hb)), List.length_cons]
    ring

theorem cell_block_length (row col : Nat) :
    ((((List.range' 1 9).map fun (num : Nat) => get_var row col num) ::
      ((List.range' 1 9).flatMap fun (num1 : Nat) =>
        (List.range' (num1 + 1) (9 - num1)).map fun (num2 : Nat) =>
          [-get_var row col num1, -get_var row col num2])) : List (List Int)).length = 37 := by
  rw [List.length_cons, List.length_flatMap]
  have h : List.map
      (List.length ∘ fun (num1 : Nat) =>
        (List.range' (num1 + 1) (9 - num1)).map fun (num2 : Nat) =>
          ([-get_var row col num1, -get_var row col num2] : List Int))
      (List.range' 1 9) = List.map (fun num1 => 9 - num1) (List.range' 1 9) := by
    apply List.map_congr_left
    intro a _
    rw [Function.comp_apply, List.length_map, List.length_range']
  rw [h]
  decide

theorem cellClauses_length : cellClauses.length = 2997 := by
  unfold cellClauses
  rw [flatMap_length_const _ _ 333 (fun row _ => by
    rw [flatMap_length_const _ _ 37 (fun col _ => cell_block_length row col),
      List.length_range])]
  rw [List.length_range]

theorem rowClauses_length : rowClauses.length = 81 := by
  unfold rowClauses
  rw [flatMap_length_const _ _ 9 (fun row _ => by
    rw [List.length_map, List.length_range']), List.length_range]

theorem colClauses_length : colClauses.length = 81 := by
  unfold colClauses
  rw [flatMap_length_const _ _ 9 (fun col _ => by
    rw [List.length_map, List.length_range']), List.length_range]

theorem blockClauses_length : blockClauses.length = 81 := by
  unfold blockClauses
  rw [flatMap_length_const _ _ 27 (fun br _ => by
    rw [flatMap_length_const _ _ 9 (fun bc _ => by
      rw [List.length_map, List.length_range']), List.length_range])]
  rw [List.length_range]

theorem countP_range_getD (l : List Int) (p : Int → Bool) :
    (List.range l.length).countP (fun i => p (l.getD i 0)) = l.countP p := by
  induction l with
  | nil => simp
  | cons x xs ih =>
    rw [List.length_cons, List.range_succ_eq_map]
    rw [List.countP_cons, List.countP_map, List.countP_cons]
    have h : ((fun i => p ((x :: xs).getD i 0)) ∘ Nat.succ) = fun i => p (xs.getD i 0) := by
      funext i
      simp [Function.comp, List.getD_cons_succ]
    rw [h, ih, List.getD_cons_zero]

theorem map_range_getD {α β : Type} (l : List α) (d : α) (f : α → β) :
    (List.range l.length).map (fun i => f (l.getD i d)) = l.map f := by
  induction l with
  | nil => simp
  | cons x xs ih =>
    rw [List.length_cons, List.range_succ_eq_map, List.map_cons, List.map_map]
    have h : ((fun i => f ((x :: xs).getD i d)) ∘ Nat.succ) = fun i => f (xs.getD i d) := by
      funext i
      simp [Function.comp, List.getD_cons_succ]
    rw [h, ih, List.getD_cons_zero]
    rfl

theorem givens_row_length (g : Grid) (r : Nat) :
    ((List.range 9).flatMap fun col =>
      if getCell g r col ≠ 0 then [[get_var r col (getCell g r col)]]
      else ([] : List (List Int))).length
      = (List.range 9).countP fun col => decide (getCell g r col ≠ 0) := by
  have h : ∀ l : List Nat,
      (l.flatMap fun col =>
        if getCell g r col ≠ 0 then [[get_var r col (getCell g r col)]]
        else ([] : List (List Int))).length
        = l.countP fun col => decide (getCell g r col ≠ 0) := by
    intro l
    induction l with
    | nil => simp
    | cons c cs ih =>
      rw [List.flatMap_cons, List.length_append, ih, List.countP_cons]
      by_cases hc : getCell g r c ≠ 0
      · rw [if_pos hc, decide_eq_true hc]
        simp [Nat.add_comm]
      · rw [if_neg hc, decide_eq_false hc]
        simp
  exact h _

theorem givensClauses_length (g : Grid) (h9 : g.length = 9)
    (hrow : ∀ row ∈ g, row.length = 9) :
    (givensClauses g).length = nonzeroCount g := by
  unfold givensClauses nonzeroCount
  rw [List.length_flatMap]
  have hmap : List.map
      (List.length ∘ fun row => (List.range 9).flatMap fun col =>
        if getCell g row col ≠ 0 then [[get_var row col (getCell g row col)]]
        else ([] : List (List Int)))
      (List.range 9)
      = List.map (fun row => (g.getD row []).countP fun x => decide (x ≠ 0))
          (List.range 9) := by
    apply List.map_congr_left
    intro r hr
    have hr9 : r < 9 := List.mem_range.mp hr
    rw [Function.comp_apply, givens_row_length g r]
    have hrg : r < g.length := by omega
    have hlen : (g.getD r []).length = 9 := by
      rw [List.getD_eq_getElem g [] hrg]
      exact hrow _ (List.getElem_mem hrg)
    calc (List.range 9).countP (fun col => decide (getCell g r col ≠ 0))
        = (List.range (g.getD r []).length).countP
            (fun col => decide ((g.getD r []).getD col 0 ≠ 0)) := by
          rw [hlen]
          rfl
      _ = (g.getD r []).countP (fun x => decide (x ≠ 0)) :=
          countP_range_getD (g.getD r []) (fun x => decide (x ≠ 0))
  rw [hmap, ← h9, map_range_getD g [] (fun row => row.countP fun x => decide (x ≠ 0))]

theorem givensClauses_units (g : Grid) : ∀ cl ∈ givensClauses g, cl.length = 1 := by
  intro cl hcl
  unfold givensClauses at hcl
  simp only [List.mem_flatMap, List.mem_range] at hcl
  obtain ⟨r, hr, c, hc, hmem⟩ := hcl
  by_cases hv : getCell g r c ≠ 0
  · rw [if_pos hv] at hmem
    rw [List.mem_singleton] at hmem
    subst hmem
    rfl
  · rw [if_neg hv] at hmem
    simp at hmem

/-! ### Claim C2 -/

/-- C2: on every structurally valid grid with `k` nonzero cells, the
encoder generates exactly `3240 + k` clauses: 2997 cell clauses, 81 row
clauses, 81 column clauses, 81 block clauses, and `k` unit clauses for
the givens. -/
theorem c2_clause_count (g : Grid) (hv : validate_puzzle g = true) :
    cellClauses.length = 2997 ∧ rowClauses.length = 81 ∧ colClauses.length = 81 ∧
      blockClauses.length = 81 ∧
      (givensClauses g).length = nonzeroCount g ∧
      (∀ cl ∈ givensClauses g, cl.length = 1) ∧
      (encode_puzzle encoderInit g).2.1.clauses.length = 3240 + nonzeroCount g := by
  have hs := (validate_puzzle_eq_true_iff g).mp hv
  have h9 : g.length = 9 := hs.1
  have hrows : ∀ row ∈ g, row.length = 9 := fun row hrow => (hs.2 row hrow).1
  refine ⟨cellClauses_length, rowClauses_length, colClauses_length, blockClauses_length,
    givensClauses_length g h9 hrows, givensClauses_units g, ?_⟩
  have hcl : (encode_puzzle encoderInit g).2.1.clauses =
      cellClauses ++ rowClauses ++ colClauses ++ blockClauses ++ givensClauses g := by
    simp [encode_puzzle, hv, encode_cell_constraints, encode_row_constraints,
      encode_col_constraints, encode_block_constraints, encode_initial_values,
      addClauses_clauses, encoderInit]
  rw [hcl]
  simp only [List.length_append]
  rw [cellClauses_length, rowClauses_length, colClauses_length, blockClauses_length,
    givensClauses_length g h9 hrows]

/-- Witness for C2 on the all-zero grid (`k = 0`). -/
theorem c2_clause_count_witness :
    cellClauses.length = 2997 ∧ rowClauses.length = 81 ∧ colClauses.length = 81 ∧
      blockClauses.length = 81 ∧
      (givensClauses emptyGrid).length = nonzeroCount emptyGrid ∧
      (∀ cl ∈ givensClauses emptyGrid, cl.length = 1) ∧
      (encode_puzzle encoderInit emptyGrid).2.1.clauses.length =
        3240 + nonzeroCount emptyGrid :=
  c2_clause_count emptyGrid (by decide)

/-! ### Lemmas about `setCell`, `getCell` and `extract_solution` -/

theorem emptyGrid_isG9 : isG9 emptyGrid := by
  constructor
  · rw [emptyGrid, List.length_replicate]
  · intro row hrow
    rw [emptyGrid, List.mem_replicate] at hrow
    rw [hrow.2, List.length_replicate]

theorem getCell_emptyGrid (r c : Nat) : getCell emptyGrid r c = 0 := by
  unfold getCell emptyGrid
  rcases Nat.lt_or_ge r 9 with h | h
  · have h1 : r < (List.replicate 9 (List.replicate 9 (0 : Int))).length := by
      rw [List.length_replicate]; exact h
    rw [List.getD_eq_getElem _ _ h1, List.getElem_replicate]
    rcases Nat.lt_or_ge c 9 with h' | h'
    · have h2 : c < (List.replicate 9 (0 : Int)).length := by
        rw [List.length_replicate]; exact h'
      rw [List.getD_eq_getElem _ _ h2, List.getElem_replicate]
    · exact List.getD_eq_default _ _ (by rw [List.length_replicate]; exact h')
  · have h1 : (List.replicate 9 (List.replicate 9 (0 : Int))).length ≤ r := by
      rw [List.length_replicate]; exact h
    rw [List.getD_eq_default _ _ h1]
    rfl

theorem setCell_isG9 (g : Grid) (r c : Nat) (v : Int) (hr : r < 9) (h : isG9 g) :
    isG9 (setCell g r c v) := by
  obtain ⟨hl, hrows⟩ := h
  constructor
  · simp [setCell, List.length_set, hl]
  · intro row hrow
    rcases List.mem_or_eq_of_mem_set hrow with h' | h'
    · exact hrows row h'
    · subst h'
      rw [List.length_set]
      have hrg : r < g.length := by omega
      rw [List.getD_eq_getElem g [] hrg]
      exact hrows _ (List.getElem_mem hrg)

theorem getCell_setCell (g : Grid) (r' c' r c : Nat) (v : Int) (h : isG9 g)
    (hr' : r' < 9) (hr : r < 9) (hc : c < 9) :
    getCell (setCell g r' c' v) r c =
      if r' = r ∧ c' = c then v else getCell g r c := by
  obtain ⟨hl, hrows⟩ := h
  have hrg : r < g.length := by omega
  have hr'g : r' < g.length := by omega
  have hrowlen : (g.getD r' []).length = 9 := by
    rw [List.getD_eq_getElem g [] hr'g]
    exact hrows _ (List.getElem_mem hr'g)
  unfold getCell setCell
  rw [List.getD_eq_getElem _ [] (by rw [List.length_set]; omega)]
  rw [List.getElem_set]
  by_cases hrr : r' = r
  · subst hrr
    rw [if_pos rfl]
    by_cases hcc : c' = c
    · rw [if_pos ⟨rfl, hcc⟩]
      rw [List.getD_eq_getElem _ 0 (by rw [List.length_set]; omega)]
      rw [List.getElem_set, if_pos hcc]
    · rw [if_neg (by tauto)]
      rw [List.getD_eq_getElem _ 0 (by rw [List.length_set]; omega)]
      rw [List.getElem_set, if_neg hcc]
      rw [List.getD_eq_getElem _ 0 (by omega)]
  · rw [if_neg hrr, if_neg (by tauto)]
    rw [List.getD_eq_getElem g [] hrg]

theorem numOf_mem_range (v : Int) : 1 ≤ numOf v ∧ numOf v ≤ 9 := by
  unfold numOf
  omega

theorem rowOf_toNat_lt (v : Int) (h0 : 0 < v) (h729 : v ≤ 729) : (rowOf v).toNat < 9 := by
  unfold rowOf
  omega

theorem colOf_toNat_lt (v : Int) : (colOf v).toNat < 9 := by
  unfold colOf
  omega

theorem extractStep_isG9 (g : Grid) (v : Int) (hv : 0 < v → v ≤ 729) (h : isG9 g) :
    isG9 (extractStep g v) := by
  unfold extractStep
  split
  · next h0 => exact setCell_isG9 g _ _ _ (rowOf_toNat_lt v h0 (hv h0)) h
  · exact h

theorem foldl_extract_isG9 (model : List Int) :
    ∀ g : Grid, isG9 g → (∀ v ∈ model, 0 < v → v ≤ 729) →
      isG9 (model.foldl extractStep g) := by
  induction model with
  | nil => intro g hg _; exact hg
  | cons v vs ih =>
    intro g hg hm
    rw [List.foldl_cons]
    exact ih _ (extractStep_isG9 g v (hm v (List.mem_cons_self v vs)) hg)
      (fun w hw => hm w (List.mem_cons_of_mem v hw))

theorem foldl_extract_getCell (model : List Int) :
    ∀ g : Grid, isG9 g → (∀ v ∈ model, 0 < v → v ≤ 729) →
      ∀ r c : Nat, r < 9 → c < 9 →
        getCell (model.foldl extractStep g) r c =
          ((model.filter (writesTo r c)).getLast?.map numOf).getD (getCell g r c) := by
  induction model with
  | nil =>
    intro g _ _ r c _ _
    simp
  | cons v vs ih =>
    intro g hg hm r c hr hc
    have hmv : 0 < v → v ≤ 729 := hm v (List.mem_cons_self v vs)
    have hmtl : ∀ w ∈ vs, 0 < w → w ≤ 729 := fun w hw => hm w (List.mem_cons_of_mem v hw)
    rw [List.foldl_cons]
    rw [ih (extractStep g v) (extractStep_isG9 g v hmv hg) hmtl r c hr hc]
    rw [List.filter_cons]
    by_cases hw : writesTo r c v = true
    · rw [if_pos hw]
      obtain ⟨hv0, hrow, hcol⟩ := of_decide_eq_true hw
      have hcell : getCell (extractStep g v) r c = numOf v := by
        unfold extractStep
        rw [if_pos hv0, hrow, hcol]
        rw [getCell_setCell g r c r c (numOf v) hg hr hr hc]
        simp
      rw [hcell, List.getLast?_cons]
      cases hl : (vs.filter (writesTo r c)).getLast? <;> simp [hl]
    · rw [if_neg hw]
      have hcell : getCell (extractStep g v) r c = getCell g r c := by
        unfold extractStep
        split
        · next hv0 =>
          have hne : ¬((rowOf v).toNat = r ∧ (colOf v).toNat = c) := by
            intro ⟨h1, h2⟩
            exact hw (decide_eq_true ⟨hv0, h1, h2⟩)
          rw [getCell_setCell g _ _ r c (numOf v) hg
            (rowOf_toNat_lt v hv0 (hmv hv0)) hr hc]
          rw [if_neg hne]
        · rfl
      rw [hcell]

theorem extract_solution_getCell (model : List Int)
    (hm : ∀ v ∈ model, 0 < v → v ≤ 729) (r c : Nat) (hr : r < 9) (hc : c < 9) :
    getCell (extract_solution model) r c =
      ((model.filter (writesTo r c)).getLast?.map numOf).getD 0 := by
  unfold extract_solution
  rw [foldl_extract_getCell model emptyGrid emptyGrid_isG9 hm r c hr hc,
    getCell_emptyGrid]

theorem extract_solution_filter_pos (model : List Int) :
    extract_solution model = extract_solution (model.filter fun v => decide (0 < v)) := by
  unfold extract_solution
  have key : ∀ g : Grid,
      model.foldl extractStep g = (model.filter fun v => decide (0 < v)).foldl extractStep g := by
    induction model with
    | nil => intro g; simp
    | cons v vs ih =>
      intro g
      rw [List.foldl_cons, List.filter_cons]
      by_cases hv : 0 < v
      · rw [if_pos (decide_eq_true hv), List.foldl_cons, ih]
      · have hstep : extractStep g v = g := by
          unfold extractStep
          rw [if_neg hv]
        rw [if_neg (by rw [decide_eq_false hv]; exact Bool.false_ne_true), hstep, ih]
  exact key emptyGrid

/-! ### Claim C9 -/

/-- C9: `extract_solution` ignores every negative entry (filtering them out
leaves the result unchanged), and the final value of each cell is the
decoded digit of the last positive identifier, in iteration order, that
decodes to that cell (`0` if there is none): a conflicting later entry
does not fail, it simply wins. -/
theorem c9_extract_last_write_wins (model : List Int)
    (hm : ∀ v ∈ model, 1 ≤ v.natAbs ∧ v.natAbs ≤ 729) :
    extract_solution model = extract_solution (model.filter fun v => decide (0 < v)) ∧
      ∀ r c : Nat, r < 9 → c < 9 →
        getCell (extract_solution model) r c =
          ((model.filter (writesTo r c)).getLast?.map numOf).getD 0 := by
  have hm' : ∀ v ∈ model, 0 < v → v ≤ 729 := fun v hv h0 => by
    have := hm v hv
    omega
  exact ⟨extract_solution_filter_pos model,
    fun r c hr hc => extract_solution_getCell model hm' r c hr hc⟩

/-- Witness for C9 on the model `[14, -5, 5]`: the positive entries 14 and
5 both exist, 14 decodes to cell `(0, 1)` with digit 5. -/
theorem c9_extract_last_write_wins_witness :
    extract_solution [14, -5, 5] =
        extract_solution (([14, -5, 5] : List Int).filter fun v => decide (0 < v)) ∧
      getCell (extract_solution [14, -5, 5]) 0 1 =
        ((([14, -5, 5] : List Int).filter (writesTo 0 1)).getLast?.map numOf).getD 0 :=
  ⟨(c9_extract_last_write_wins [14, -5, 5] (by decide)).1,
   (c9_extract_last_write_wins [14, -5, 5] (by decide)).2 0 1 (by decide) (by decide)⟩

/-! ### Claim C10 -/

/-- C10: on any model whose entries have absolute value in `1..729`,
`extract_solution` only computes in-range indices (row and column below
9), returns a 9×9 grid all of whose entries are in `0..9`, and an entry is
`0` exactly when no positive model entry decodes to that cell. -/
theorem c10_extract_solution_safety (model : List Int)
    (hm : ∀ v ∈ model, 1 ≤ v.natAbs ∧ v.natAbs ≤ 729) :
    (∀ v ∈ model, 0 < v → (rowOf v).toNat < 9 ∧ (colOf v).toNat < 9) ∧
      (extract_solution model).length = 9 ∧
      (∀ row ∈ extract_solution model, row.length = 9) ∧
      (∀ r c : Nat, r < 9 → c < 9 →
        (0 ≤ getCell (extract_solution model) r c ∧
          getCell (extract_solution model) r c ≤ 9) ∧
        (getCell (extract_solution model) r c = 0 ↔
          ∀ v ∈ model, ¬ writesTo r c v = true)) := by
  have hm' : ∀ v ∈ model, 0 < v → v ≤ 729 := fun v hv h0 => by
    have := hm v hv
    omega
  have hshape := foldl_extract_isG9 model emptyGrid emptyGrid_isG9 hm'
  refine ⟨?_, hshape.1, hshape.2, ?_⟩
  · intro v hv h0
    exact ⟨rowOf_toNat_lt v h0 (hm' v hv h0), colOf_toNat_lt v⟩
  · intro r c hr hc
    rw [extract_solution_getCell model hm' r c hr hc]
    cases hl : (model.filter (writesTo r c)).getLast? with
    | none =>
      rw [List.getLast?_eq_none_iff, List.filter_eq_nil_iff] at hl
      simp only [Option.map_none', Option.getD_none]
      refine ⟨⟨le_refl 0, by omega⟩, ?_, ?_⟩
      · intro _
        exact hl
      · intro _
        trivial
    | some w =>
      have hwopt : w ∈ (model.filter (writesTo r c)).getLast? := by
        rw [hl]
        exact Option.mem_def.mpr rfl
      obtain ⟨hne, hw⟩ := List.mem_getLast?_eq_getLast hwopt
      have hwmem : w ∈ model.filter (writesTo r c) := by
        rw [hw]
        exact List.getLast_mem hne
      rw [List.mem_filter] at hwmem
      obtain ⟨hwmod, hwrites⟩ := hwmem
      have hnum := numOf_mem_range w
      simp only [Option.map_some', Option.getD_some]
      refine ⟨⟨by omega, by omega⟩, ?_, ?_⟩
      · intro h0
        exact absurd h0 (by omega)
      · intro hall
        exact absurd hwrites (hall w hwmod)

/-- Witness for C10 on the model `[14, -5, 5]`. -/
theorem c10_extract_solution_safety_witness :
    (extract_solution [14, -5, 5]).length = 9 ∧
      ((0 : Int) ≤ getCell (extract_solution [14, -5, 5]) 0 0 ∧
        getCell (extract_solution [14, -5, 5]) 0 0 ≤ 9) :=
  ⟨(c10_extract_solution_safety [14, -5, 5] (by decide)).2.1,
   ((c10_extract_solution_safety [14, -5, 5] (by decide)).2.2.2 0 0
     (by decide) (by decide)).1⟩

/-! ### Toward claim C5: the model built from a solved grid -/

theorem filter_range_eq_singleton (n t : Nat) (q : Nat → Bool) (ht : t < n)
    (hq : q t = true) (huniq : ∀ j, j < n → q j = true → j = t) :
    (List.range n).filter q = [t] := by
  revert ht huniq
  induction n with
  | zero => intro ht _; omega
  | succ m ih =>
    intro ht huniq
    rw [List.range_succ, List.filter_append]
    by_cases hmt : t = m
    · subst hmt
      have hnil : (List.range t).filter q = [] := by
        rw [List.filter_eq_nil_iff]
        intro j hj hqj
        have hj' := List.mem_range.mp hj
        have := huniq j (by omega) hqj
        omega
      rw [hnil]
      simp [hq]
    · have hqm : ¬ q m = true := fun hqm' => hmt (huniq m (by omega) hqm').symm
      rw [ih (by omega) (fun j hj hqj => huniq j (by omega) hqj)]
      simp [hqm]

theorem solvedGrid_getCell (g : Grid) (h : solvedGrid g) (r c : Nat)
    (hr : r < 9) (hc : c < 9) : 1 ≤ getCell g r c ∧ getCell g r c ≤ 9 := by
  obtain ⟨h9, hrows⟩ := h
  have hrg : r < g.length := by omega
  have hrowmem : g.getD r [] ∈ g := by
    rw [List.getD_eq_getElem g [] hrg]
    exact List.getElem_mem hrg
  obtain ⟨hlen, hvals⟩ := hrows _ hrowmem
  have hcl : c < (g.getD r []).length := by omega
  unfold getCell
  rw [List.getD_eq_getElem _ 0 hcl]
  exact hvals _ (List.getElem_mem hcl)

theorem decode_get_var (r c : Nat) (d : Int) (hr : r < 9) (hc : c < 9)
    (hd1 : 1 ≤ d) (hd9 : d ≤ 9) :
    1 ≤ get_var r c d ∧ get_var r c d ≤ 729 ∧
      (rowOf (get_var r c d)).toNat = r ∧ (colOf (get_var r c d)).toNat = c ∧
      numOf (get_var r c d) = d := by
  unfold get_var rowOf colOf numOf
  omega

theorem mem_trueIds (g : Grid) (x : Int) :
    x ∈ trueIds g ↔
      ∃ r : Nat, r < 9 ∧ ∃ c : Nat, c < 9 ∧ x = get_var r c (getCell g r c) := by
  unfold trueIds
  constructor
  · intro hx
    rw [List.mem_flatMap] at hx
    obtain ⟨r, hr, hx⟩ := hx
    rw [List.mem_range] at hr
    rw [List.mem_map] at hx
    obtain ⟨c, hc, hx⟩ := hx
    rw [List.mem_range] at hc
    exact ⟨r, hr, c, hc, hx.symm⟩
  · intro ⟨r, hr, c, hc, hx⟩
    rw [List.mem_flatMap]
    exact ⟨r, List.mem_range.mpr hr, List.mem_map.mpr ⟨c, List.mem_range.mpr hc, hx.symm⟩⟩

theorem grid_eq_of_getCell (g1 g2 : Grid) (h1 : isG9 g1) (h2 : isG9 g2)
    (h : ∀ r c : Nat, r < 9 → c < 9 → getCell g1 r c = getCell g2 r c) : g1 = g2 := by
  obtain ⟨hl1, hrows1⟩ := h1
  obtain ⟨hl2, hrows2⟩ := h2
  apply List.ext_getElem (by omega)
  intro n hn1 hn2
  have hrow1 := hrows1 _ (List.getElem_mem hn1)
  have hrow2 := hrows2 _ (List.getElem_mem hn2)
  apply List.ext_getElem (by omega)
  intro m hm1 hm2
  have hcell := h n m (by omega) (by omega)
  unfold getCell at hcell
  rw [List.getD_eq_getElem g1 [] hn1, List.getD_eq_getElem g2 [] hn2] at hcell
  rw [List.getD_eq_getElem _ 0 hm1, List.getD_eq_getElem _ 0 hm2] at hcell
  exact hcell

theorem nonzeroCount_solved (g : Grid) (h : solvedGrid g) : nonzeroCount g = 81 := by
  unfold nonzeroCount
  have hmap : g.map (fun row => row.countP fun x => decide (x ≠ 0)) =
      g.map (fun _ => 9) := by
    apply List.map_congr_left
    intro row hrw
    obtain ⟨hlen, hvals⟩ := h.2 row hrw
    have hcnt : row.countP (fun x => decide (x ≠ 0)) = row.length :=
      List.countP_eq_length.mpr (fun a ha => decide_eq_true (by
        have := hvals a ha
        omega))
    rw [hcnt, hlen]
  rw [hmap]
  have hsum : ∀ l : List (List Int), (l.map fun _ => (9 : Nat)).sum = 9 * l.length := by
    intro l
    induction l with
    | nil => simp
    | cons a as ih =>
      rw [List.map_cons, List.sum_cons, ih, List.length_cons]
      ring
  rw [hsum, h.1]

theorem modelOf_mem_bound (g : Grid) : ∀ v ∈ modelOf g, 0 < v → v ≤ 729 := by
  intro v hv h0
  unfold modelOf at hv
  rw [List.mem_map] at hv
  obtain ⟨i, hi, hv⟩ := hv
  rw [List.mem_range] at hi
  by_cases hmem : ((i : Int) + 1) ∈ trueIds g
  · rw [if_pos hmem] at hv
    omega
  · rw [if_neg hmem] at hv
    omega

theorem modelOf_filter (g : Grid) (h : solvedGrid g) (r c : Nat)
    (hr : r < 9) (hc : c < 9) :
    (modelOf g).filter (writesTo r c) = [get_var r c (getCell g r c)] := by
  obtain ⟨hd1, hd9⟩ := solvedGrid_getCell g h r c hr hc
  obtain ⟨hid1, hid729, hdr, hdc, hdn⟩ :=
    decode_get_var r c (getCell g r c) hr hc hd1 hd9
  set vid := get_var r c (getCell g r c) with hviddef
  have hsame : ((vid.toNat - 1 : Nat) : Int) + 1 = vid := by omega
  have hvidmem : vid ∈ trueIds g := by
    rw [mem_trueIds]
    exact ⟨r, hr, c, hc, rfl⟩
  unfold modelOf
  rw [List.filter_map]
  have hq : ∀ j : Nat,
      ((writesTo r c) ∘ fun i : Nat =>
        if ((i : Int) + 1) ∈ trueIds g then ((i : Int) + 1) else -((i : Int) + 1)) j = true ↔
      (((j : Int) + 1) ∈ trueIds g ∧ (rowOf ((j : Int) + 1)).toNat = r ∧
        (colOf ((j : Int) + 1)).toNat = c) := by
    intro j
    rw [Function.comp_apply]
    by_cases hmem : ((j : Int) + 1) ∈ trueIds g
    · rw [if_pos hmem]
      unfold writesTo
      simp only [decide_eq_true_eq]
      constructor
      · intro ⟨_, h1, h2⟩
        exact ⟨hmem, h1, h2⟩
      · intro ⟨_, h1, h2⟩
        exact ⟨by omega, h1, h2⟩
    · rw [if_neg hmem]
      unfold writesTo
      simp only [decide_eq_true_eq]
      constructor
      · intro ⟨h0, _, _⟩
        exact absurd h0 (by omega)
      · intro ⟨hm', _, _⟩
        exact absurd hm' hmem
  have hkey : (List.range 729).filter
      ((writesTo r c) ∘ fun i : Nat =>
        if ((i : Int) + 1) ∈ trueIds g then ((i : Int) + 1) else -((i : Int) + 1)) =
      [vid.toNat - 1] := by
    apply filter_range_eq_singleton 729 (vid.toNat - 1) _ (by omega)
    · rw [hq]
      refine ⟨?_, ?_, ?_⟩
      · rw [hsame]
        exact hvidmem
      · rw [hsame, hdr]
      · rw [hsame, hdc]
    · intro j hj hqj
      rw [hq] at hqj
      obtain ⟨hmem, hjr, hjc⟩ := hqj
      rw [mem_trueIds] at hmem
      obtain ⟨r', hr', c', hc', heq⟩ := hmem
      obtain ⟨hd1', hd9'⟩ := solvedGrid_getCell g h r' c' hr' hc'
      obtain ⟨_, _, hdr', hdc', _⟩ := decode_get_var r' c' (getCell g r' c') hr' hc' hd1' hd9'
      rw [heq] at hjr hjc
      rw [hdr'] at hjr
      rw [hdc'] at hjc
      subst hjr
      subst hjc
      have : ((j : Int) + 1) = vid := by rw [heq, hviddef]
      omega
  rw [hkey, List.map_cons, List.map_nil]
  rw [hsame, if_pos hvidmem]

/-! ### Claim C5 -/

/-- C5: encoding a fully solved, rule-consistent grid as givens yields
exactly 81 unit clauses in the given-value group, and decoding the
assignment in which exactly those 81 encoded literals are true (every
other variable false) reproduces the original grid exactly. -/
theorem c5_solved_grid_roundtrip (g : Grid) (h : solvedGrid g)
    (hrc : ruleConsistent g = true) :
    (givensClauses g).length = 81 ∧ (∀ cl ∈ givensClauses g, cl.length = 1) ∧
      extract_solution (modelOf g) = g := by
  have hrows : ∀ row ∈ g, row.length = 9 := fun row hrw => (h.2 row hrw).1
  refine ⟨?_, givensClauses_units g, ?_⟩
  · rw [givensClauses_length g h.1 hrows, nonzeroCount_solved g h]
  · apply grid_eq_of_getCell _ _
      (foldl_extract_isG9 (modelOf g) emptyGrid emptyGrid_isG9 (modelOf_mem_bound g))
      ⟨h.1, hrows⟩
    intro r c hr hc
    show getCell (extract_solution (modelOf g)) r c = getCell g r c
    rw [extract_solution_getCell (modelOf g) (modelOf_mem_bound g) r c hr hc]
    rw [modelOf_filter g h r c hr hc]
    obtain ⟨hd1, hd9⟩ := solvedGrid_getCell g h r c hr hc
    obtain ⟨_, _, _, _, hdn⟩ := decode_get_var r c (getCell g r c) hr hc hd1 hd9
    simp only [List.getLast?_singleton, Option.map_some', Option.getD_some]
    exact hdn

/-- Witness for C5 at a concrete solved, rule-consistent grid. -/
theorem c5_solved_grid_roundtrip_witness :
    (givensClauses demoSolvedGrid).length = 81 ∧
      (∀ cl ∈ givensClauses demoSolvedGrid, cl.length = 1) ∧
      extract_solution (modelOf demoSolvedGrid) = demoSolvedGrid :=
  c5_solved_grid_roundtrip demoSolvedGrid (by unfold solvedGrid; decide) (by decide)

end Sudoku
